import Mathlib

/-
Verification development for src/HIP/with_mpi/vAdd_hip.cpp: an MPI + HIP
vector-addition benchmark.  Machine integers are modelled as Nat/Int,
IEEE values that the program manipulates exactly (sums of array
elements, tolerances, reduction results) are modelled as rationals or
reals, and the one place where floating-point rounding is semantically
relevant to a claim -- the conversion `float(N)` in the execution
configuration -- is modelled explicitly as round-to-nearest-even to a
24-bit significand.
-/

/-! ## Execution configuration (vAdd_hip.cpp lines 81-82) -/

/-- Fuel-driven floor of log2; `lg2 64 n` is exact for every `n < 2^64`,
which covers every value a `long long int` can hold. -/
def lg2 : ℕ → ℕ → ℕ
  | 0, _ => 0
  | fuel + 1, n => if n < 2 then 0 else lg2 fuel (n / 2) + 1

/-- Floor of the base-2 logarithm, total on the range of `long long int`. -/
def floorLog2 (n : ℕ) : ℕ := lg2 64 n

/-- The value of the C cast `float(n)` for a nonnegative integer `n`:
IEEE-754 single precision keeps a 24-bit significand, rounding to
nearest with ties to even.  Integers below `2^24` convert exactly. -/
def rnd24 (n : ℕ) : ℕ :=
  if n < 2 ^ 24 then n
  else
    let e := floorLog2 n - 23
    let q := n / 2 ^ e
    let r := n % 2 ^ e
    if r < 2 ^ (e - 1) then q * 2 ^ e
    else if 2 ^ (e - 1) < r then (q + 1) * 2 ^ e
    else (if q % 2 = 0 then q else q + 1) * 2 ^ e

/-- `int thr_per_blk = 256;` (line 81). -/
def thr_per_blk : ℕ := 256

/-- `int blk_in_grid = ceil( float(N) / thr_per_blk );` (line 82).
`float(N)` rounds `N` to 24 significant bits; the subsequent division
by `256` and the ceiling are exact in floating point (the divisor is a
power of two and no overflow can occur for `long long` inputs), so the
stored value is the integer ceiling of `rnd24 N / 256`. -/
def blk_in_grid (n : ℕ) : ℕ := (rnd24 n + (thr_per_blk - 1)) / thr_per_blk

/-! ## The kernel `add_vectors` (lines 21-25) and its launch (line 85) -/

/-- One work-item of `add_vectors` with global index `id`:
`if (id < n) c[id] = a[id] + b[id];`.  The array contents are modelled
as total maps from (mathematical) indices to values of an additive
type, so that out-of-range behaviour is observable. -/
def add_vectors_step {α : Type} [Add α] (n : ℤ) (a b : ℤ → α) (c : ℤ → α) (id : ℤ) : ℤ → α :=
  if id < n then Function.update c id (a id + b id) else c

/-- The global indices `blockDim.x * blockIdx.x + threadIdx.x` of a grid
of `g` blocks of 256 threads, block by block (`blockDim.x = 256` in the
launch configuration of line 85). -/
def gridIds : ℕ → List ℤ
  | 0 => []
  | blk + 1 => gridIds blk ++ (List.range 256).map fun t : ℕ => 256 * (blk : ℤ) + (t : ℤ)

/-- Running the `add_vectors` kernel over a grid of `g` blocks of 256
work-items on arrays `a`, `b`, `c` with length argument `n`: every
work-item executes `add_vectors_step`.  The work-items write pairwise
distinct locations, so any sequential order has the same result; we
fold block by block. -/
def runKernel {α : Type} [Add α] (n : ℤ) (a b c : ℤ → α) (g : ℕ) : ℤ → α :=
  (gridIds g).foldl (fun acc id => add_vectors_step n a b acc id) c

/-! ## Host verification, control flow and exit codes (lines 45-135) -/

/-- `double tolerance = 1.0e-14;` (line 53), modelled exactly. -/
def tolerance : ℚ := 1 / 10 ^ 14

/-- The accumulation loop `for(i=0;i<N;i++) sum = sum + C[i];`
(lines 97-100), in exact arithmetic. -/
def sumC (c : ℤ → ℚ) (n : ℕ) : ℚ := ∑ i ∈ Finset.range n, c (i : ℤ)

/-- `double result = sum / (double)N;` (line 102). -/
def resultOf (c : ℤ → ℚ) (n : ℕ) : ℚ := sumC c n / (n : ℚ)

/-- `double relative_difference = fabs( (result - 1.0) / 1.0 );` (line 103). -/
def relative_difference (result : ℚ) : ℚ := |(result - 1) / 1|

/-- Observable events of one process of `main`, in source order.  The
two `eventDestroy` constructors exist so that their absence from every
trace is expressible: the source never calls `hipEventDestroy`. -/
inductive Ev where
  | hostMallocA | hostMallocB | hostMallocC | seedLoop
  | devMallocA | devMallocB | devMallocC
  | h2dCopyA | h2dCopyB
  | eventCreateStart | eventCreateEnd
  | eventRecordStart | kernelLaunch | eventRecordEnd | eventSync | elapsedQuery
  | d2hCopyC
  | reduceGpu
  | devFreeA | devFreeB | devFreeC
  | hostFreeA | hostFreeB | hostFreeC
  | reduceWall
  | eventDestroyStart | eventDestroyEnd
  | report | finalize
deriving DecidableEq

/-- The events every process performs before the verification branch
(lines 57-95): allocation and seeding, device mirrors, host-to-device
copies, event setup, timed kernel launch, device-to-host copy of `C`,
and then the device-time MAX reduction of line 94-95.  Note that the
reduction precedes verification in the source. -/
def setupEvents : List Ev :=
  [Ev.hostMallocA, Ev.hostMallocB, Ev.hostMallocC, Ev.seedLoop,
   Ev.devMallocA, Ev.devMallocB, Ev.devMallocC,
   Ev.h2dCopyA, Ev.h2dCopyB,
   Ev.eventCreateStart, Ev.eventCreateEnd,
   Ev.eventRecordStart, Ev.kernelLaunch, Ev.eventRecordEnd, Ev.eventSync, Ev.elapsedQuery,
   Ev.d2hCopyC,
   Ev.reduceGpu]

/-- The events of the non-failing continuation (lines 110-135): device
frees, host frees, the wall-time MAX reduction, the coordinator report
and `MPI_Finalize`; no `hipEventDestroy` call exists in the source. -/
def successTail : List Ev :=
  [Ev.devFreeA, Ev.devFreeB, Ev.devFreeC,
   Ev.hostFreeA, Ev.hostFreeB, Ev.hostFreeC,
   Ev.reduceWall, Ev.report, Ev.finalize]

/-- One process of `main` on a run whose verification loop computed the
mean `result`, assuming every device-API call succeeds: the event trace
and the process exit status.  Lines 105-108: if
`relative_difference > tolerance` the process prints and calls
`exit(1)`; otherwise it runs to `return 0`. -/
def mainRun (result : ℚ) : List Ev × ℕ :=
  if tolerance < relative_difference result then (setupEvents, 1)
  else (setupEvents ++ successTail, 0)

/-! ## The hipErrorCheck macro (lines 9-16) -/

/-- `hipSuccess` is status 0 of `hipError_t`. -/
def hipSuccess : ℕ := 0

/-- Model of the `hipErrorCheck` macro: given the status returned by a
device-API call it either continues (`none`) or logs the call site and
terminates via `exit(0)` (`some exitStatus`).  The source passes the
literal `0` to `exit`. -/
def hipErrorCheck (hipErr : ℕ) : Option ℕ :=
  if hipErr = hipSuccess then none else some 0

/-! ## The MPI MAX reductions (lines 94-95 and 121-122) and the report -/

/-- `MPI_Reduce(..., MPI_MAX, 0, MPI_COMM_WORLD)` over the per-process
contributions, one list entry per rank: the coordinator receives the
maximum of the contributed values.  (Semantics of the external MPI
collaborator as the spec describes it.) -/
def mpiMax : List ℚ → ℚ
  | [] => 0
  | x :: xs => xs.foldl max x

/-- The device-time figure printed by rank 0 (line 129):
`max_gpu_time / 1000.0`, where the contributions are the
`hipEventElapsedTime` values in milliseconds. -/
def maxGpuTimeSecondsReported (gpuMs : List ℚ) : ℚ := mpiMax gpuMs / 1000

/-- The wall-time figure printed by rank 0 (line 130):
`total_time_max / 1000.0`, where the contributions are `MPI_Wtime`
differences, which are already in seconds. -/
def maxWallTimeSecondsReported (wallSeconds : List ℚ) : ℚ := mpiMax wallSeconds / 1000

/-! ## Host array seeding (lines 61-66), in exact real arithmetic -/

/-- `A[i] = sin(random_value) * sin(random_value);` with `r i` the
per-index draw of line 62. -/
noncomputable def seedA (r : ℤ → ℝ) (i : ℤ) : ℝ := Real.sin (r i) * Real.sin (r i)

/-- `B[i] = cos(random_value) * cos(random_value);` with the same draw. -/
noncomputable def seedB (r : ℤ → ℝ) (i : ℤ) : ℝ := Real.cos (r i) * Real.cos (r i)

/-- `C[i] = 0.0;` (line 65). -/
def seedC : ℤ → ℝ := fun _ => 0

/-- `long long int N = 256*1024*1024;` (line 51). -/
def Nref : ℕ := 256 * 1024 * 1024

/-- The mean of `C` after the kernel ran over the launch configuration
the program derives for `Nref`, in exact real arithmetic. -/
noncomputable def meanAfterAdd (r : ℤ → ℝ) : ℝ :=
  (∑ i ∈ Finset.range Nref,
      runKernel (Nref : ℤ) (seedA r) (seedB r) seedC (blk_in_grid Nref) (i : ℤ)) / (Nref : ℝ)

/-! ## Narrowing of the kernel length argument (lines 21, 51, 85) -/

/-- The value an `int` parameter receives from a `long long int`
argument: reduction modulo `2^32` into `[-2^31, 2^31)`. -/
def toInt32 (x : ℤ) : ℤ := (x + 2 ^ 31) % 2 ^ 32 - 2 ^ 31

/-- The host-side array length as a mathematical integer. -/
def N_host : ℤ := 256 * 1024 * 1024

/-! ## Kernel semantics: characterization of `runKernel` -/

/-- One work-item with global index `id` leaves every location other
than `id` unchanged, and writes `a id + b id` at `id` exactly when the
boundary guard `id < n` passes. -/
theorem add_vectors_step_apply {α : Type} [Add α] (n : ℤ) (a b c : ℤ → α) (id i : ℤ) :
    add_vectors_step n a b c id i = if i = id ∧ i < n then a i + b i else c i := by
  unfold add_vectors_step
  rcases eq_or_ne i id with rfl | hne
  · by_cases hin : i < n
    · simp [hin, Function.update_apply]
    · simp [hin]
  · by_cases hidn : id < n
    · simp [hidn, Function.update_apply, hne]
    · simp [hidn, hne]

/-- Folding the work-items of an arbitrary list of global indices. -/
theorem foldl_step_apply {α : Type} [Add α] (n : ℤ) (a b : ℤ → α) :
    ∀ (L : List ℤ) (c : ℤ → α) (i : ℤ),
      (L.foldl (fun acc id => add_vectors_step n a b acc id) c) i
        = if i ∈ L ∧ i < n then a i + b i else c i := by
  intro L
  induction L with
  | nil => intro c i; simp
  | cons id L ih =>
    intro c i
    simp only [List.foldl_cons]
    rw [ih]
    simp only [add_vectors_step_apply, List.mem_cons]
    rcases eq_or_ne i id with rfl | hid
    · by_cases hiL : i ∈ L <;> by_cases hin : i < n <;> simp [hiL, hin]
    · by_cases hiL : i ∈ L <;> by_cases hin : i < n <;> simp [hiL, hin, hid]

/-- The global indices of a grid of `g` blocks of 256 threads are
exactly the integers of `[0, 256 * g)`. -/
theorem mem_gridIds (g : ℕ) (i : ℤ) : i ∈ gridIds g ↔ 0 ≤ i ∧ i < 256 * g := by
  induction g with
  | zero => simp [gridIds]
  | succ blk ih =>
    unfold gridIds
    rw [List.mem_append, ih]
    constructor
    · rintro (⟨h0, hlt⟩ | hm)
      · push_cast
        omega
      · rw [List.mem_map] at hm
        obtain ⟨t, ht, hi⟩ := hm
        rw [List.mem_range] at ht
        subst hi
        push_cast
        omega
    · intro h
      push_cast at h
      by_cases hsm : i < 256 * (blk : ℤ)
      · exact Or.inl ⟨h.1, hsm⟩
      · right
        rw [List.mem_map]
        refine ⟨(i - 256 * (blk : ℤ)).toNat, ?_, ?_⟩
        · rw [List.mem_range]
          omega
        · omega

/-- After the kernel runs over `g` blocks of 256 work-items, location
`i` holds `a i + b i` exactly when some work-item covers `i` and the
guard `i < n` passes; every other location is untouched. -/
theorem runKernel_apply {α : Type} [Add α] (n : ℤ) (a b c : ℤ → α) (g : ℕ) (i : ℤ) :
    runKernel n a b c g i = if 0 ≤ i ∧ i < 256 * g ∧ i < n then a i + b i else c i := by
  unfold runKernel
  rw [foldl_step_apply]
  simp [mem_gridIds, and_assoc]

/-! ## Claim C10: narrowing of the length argument -/

/-- Claim C10: the host declares the length `N` as a 64-bit `long long int`
but the kernel receives it as a 32-bit `int`; for every `N` with
`0 < N < 2^31` the narrowed value equals `N`, so the kernel guard
`id < n` covers exactly `[0, N)`. -/
theorem vAdd_C10 (n : ℤ) (h0 : 0 < n) (h31 : n < 2 ^ 31) :
    toInt32 n = n ∧ ∀ id : ℤ, (id < toInt32 n ↔ id < n) := by
  have h : toInt32 n = n := by unfold toInt32; omega
  exact ⟨h, fun id => by rw [h]⟩

/-- Witness for C10 at the reference length `N = 256*1024*1024`. -/
theorem vAdd_C10_witness :
    (0 : ℤ) < N_host ∧ N_host < 2 ^ 31 ∧ toInt32 N_host = N_host :=
  ⟨by norm_num [N_host], by norm_num [N_host],
    (vAdd_C10 N_host (by norm_num [N_host]) (by norm_num [N_host])).1⟩

/-! ## Claim C2: the derived execution configuration -/

/-- Counterexample to C2 as stated: at `N = 2^24 + 1` the conversion
`float(N)` rounds down to `2^24`, so `blk_in_grid` is `65536`, which is
not the ceiling of `N / 256` (that is `65537`), and the claimed
invariant `thr_per_blk * blk_in_grid >= N` fails. -/
theorem vAdd_C2_cex :
    blk_in_grid 16777217 = 65536 ∧
    thr_per_blk * blk_in_grid 16777217 < 16777217 ∧
    blk_in_grid 16777217 ≠ (16777217 + 255) / 256 := by decide

/-- Claim C2, amended: for every `N > 0` whose conversion to single
precision is exact (`rnd24 N = N`; in particular every `N ≤ 2^24` and
the reference `N = 256*1024*1024`), the derived configuration satisfies
`blk_in_grid = ceil(N / 256)` and `thr_per_blk * blk_in_grid ≥ N`. -/
theorem vAdd_C2_amended (n : ℕ) (h0 : 0 < n) (hexact : rnd24 n = n) :
    (blk_in_grid n : ℤ) = ⌈(n : ℚ) / 256⌉ ∧ n ≤ thr_per_blk * blk_in_grid n := by
  have hb : blk_in_grid n = (n + 255) / 256 := by
    unfold blk_in_grid thr_per_blk
    rw [hexact]
  constructor
  · rw [hb]
    symm
    rw [Int.ceil_eq_iff]
    have h1 : n ≤ 256 * ((n + 255) / 256) := by omega
    have h2 : 256 * ((n + 255) / 256) < n + 256 := by omega
    have h1q : (n : ℚ) ≤ 256 * (((n + 255) / 256 : ℕ) : ℚ) := by exact_mod_cast h1
    have h2q : 256 * (((n + 255) / 256 : ℕ) : ℚ) < (n : ℚ) + 256 := by exact_mod_cast h2
    constructor
    · rw [Int.cast_natCast, lt_div_iff₀ (by norm_num : (0 : ℚ) < 256)]
      linarith
    · rw [Int.cast_natCast, div_le_iff₀ (by norm_num : (0 : ℚ) < 256)]
      linarith
  · rw [hb]
    unfold thr_per_blk
    omega

/-- Witness for the amended C2 at `N = 300` (not a multiple of 256). -/
theorem vAdd_C2_amended_witness :
    0 < 300 ∧ rnd24 300 = 300 ∧
    ((blk_in_grid 300 : ℤ) = ⌈(300 : ℚ) / 256⌉ ∧ 300 ≤ thr_per_blk * blk_in_grid 300) :=
  ⟨by decide, by decide, vAdd_C2_amended 300 (by decide) (by decide)⟩

/-! ## Claim C1: what the kernel writes -/

/-- Counterexample to C1 as stated for every `N > 0`: at `N = 2^24 + 1`
the grid the program derives has `65536` blocks, which covers only
`[0, 2^24)`, so the element at index `2^24` -- in range `[0, N)` -- is
never written and keeps its initial value `0` instead of `A + B`. -/
theorem vAdd_C1_cex :
    (0 : ℤ) ≤ 16777216 ∧ (16777216 : ℤ) < 16777217 ∧
    runKernel (16777217 : ℤ) (fun _ => (1 : ℚ)) (fun _ => (1 : ℚ)) (fun _ => (0 : ℚ))
      (blk_in_grid 16777217) 16777216 ≠ 1 + 1 := by
  refine ⟨by norm_num, by norm_num, ?_⟩
  have hb : blk_in_grid 16777217 = 65536 := by decide
  have hc : ¬ ((0 : ℤ) ≤ 16777216 ∧ (16777216 : ℤ) < 256 * ((65536 : ℕ) : ℤ) ∧
      (16777216 : ℤ) < 16777217) := by decide
  rw [runKernel_apply, hb, if_neg hc]
  norm_num

/-- Claim C1, amended: whenever the derived grid covers `[0, N)`
(`N ≤ 256 * blk_in_grid N`, which the float rounding can break for
`N > 2^24` but which holds for the reference length), the kernel writes
`C[i] = A[i] + B[i]` for every `i` in `[0, N)`, and no index outside
`[0, N)` is ever written (the latter holds for every `N`: each
work-item with `id ≥ N` performs no write). -/
theorem vAdd_C1_amended (n : ℕ) (a b c : ℤ → ℚ) (hcov : n ≤ 256 * blk_in_grid n) :
    (∀ i : ℤ, 0 ≤ i → i < (n : ℤ) → runKernel (n : ℤ) a b c (blk_in_grid n) i = a i + b i) ∧
    (∀ i : ℤ, i < 0 ∨ (n : ℤ) ≤ i → runKernel (n : ℤ) a b c (blk_in_grid n) i = c i) := by
  constructor
  · intro i hi0 hin
    have hc : 0 ≤ i ∧ i < 256 * (blk_in_grid n : ℤ) ∧ i < (n : ℤ) := by omega
    rw [runKernel_apply, if_pos hc]
  · intro i hi
    have hc : ¬ (0 ≤ i ∧ i < 256 * (blk_in_grid n : ℤ) ∧ i < (n : ℤ)) := by omega
    rw [runKernel_apply, if_neg hc]

/-- Witness for the amended C1 at `N = 3`, constant arrays. -/
theorem vAdd_C1_amended_witness :
    (3 : ℕ) ≤ 256 * blk_in_grid 3 ∧
    runKernel ((3 : ℕ) : ℤ) (fun _ => (1 : ℚ)) (fun _ => (1 : ℚ)) (fun _ => (0 : ℚ))
      (blk_in_grid 3) 1 = 1 + 1 :=
  ⟨by decide, by
    have h := (vAdd_C1_amended 3 (fun _ => (1 : ℚ)) (fun _ => (1 : ℚ)) (fun _ => (0 : ℚ))
      (by decide)).1 1 (by decide) (by decide)
    simpa using h⟩

/-! ## Claim C3: the failing process and the two reductions -/

/-- Counterexample to C3 as stated: a run whose verification fails
(`relative_difference > tolerance`) has nevertheless contributed to the
device-time MAX reduction, because `MPI_Reduce` on the GPU time (lines
94-95) happens before the verification branch (lines 105-108). -/
theorem vAdd_C3_cex :
    tolerance < relative_difference 2 ∧ Ev.reduceGpu ∈ (mainRun 2).1 := by
  have h : tolerance < relative_difference 2 := by norm_num [tolerance, relative_difference]
  refine ⟨h, ?_⟩
  unfold mainRun
  rw [if_pos h]
  decide

/-- Claim C3, amended: a process whose verification fails exits with
status 1 before the wall-time MAX reduction, so it never contributes to
that reduction -- but it has already contributed to the device-time MAX
reduction, which the source places before verification. -/
theorem vAdd_C3_amended (result : ℚ) (hfail : tolerance < relative_difference result) :
    Ev.reduceGpu ∈ (mainRun result).1 ∧ Ev.reduceWall ∉ (mainRun result).1 ∧
    (mainRun result).2 = 1 := by
  unfold mainRun
  rw [if_pos hfail]
  exact ⟨by decide, by decide, rfl⟩

/-- Witness for the amended C3 on a failing run with mean 2. -/
theorem vAdd_C3_amended_witness :
    tolerance < relative_difference 2 ∧
    (Ev.reduceGpu ∈ (mainRun 2).1 ∧ Ev.reduceWall ∉ (mainRun 2).1 ∧ (mainRun 2).2 = 1) := by
  have h : tolerance < relative_difference 2 := by norm_num [tolerance, relative_difference]
  exact ⟨h, vAdd_C3_amended 2 h⟩

/-! ## Claim C4: the device-API error path -/

/-- Claim C4 names a code bug: the `hipErrorCheck` macro does log and
terminate on every non-success status, but it terminates via `exit(0)`
-- exit status 0, the value the claim reserves for normal completion.
This theorem evaluates the model at a failing status (1) and shows that
no device-API failure can ever produce a non-zero exit status. -/
theorem vAdd_C4_bug :
    hipErrorCheck 1 = some 0 ∧
    ∀ e : ℕ, hipErrorCheck e ≠ some 1 ∧ (hipErrorCheck e = none ∨ hipErrorCheck e = some 0) := by
  refine ⟨rfl, fun e => ?_⟩
  unfold hipErrorCheck
  by_cases h : e = hipSuccess <;> simp [h]

/-! ## Claim C5: the verification branch and exit statuses -/

/-- Claim C5: verification computes
`relative_difference = |mean(C) - 1.0|` where `mean(C) = sum / N`, and
the process exits with status 1 exactly when it exceeds the tolerance
`1e-14`; otherwise it runs to completion (`MPI_Finalize` is reached)
and returns 0. -/
theorem vAdd_C5 (c : ℤ → ℚ) (n : ℕ) :
    relative_difference (resultOf c n) = |sumC c n / (n : ℚ) - 1| ∧
    tolerance = 1 / 10 ^ 14 ∧
    ((mainRun (resultOf c n)).2 = 1 ↔ tolerance < relative_difference (resultOf c n)) ∧
    ((mainRun (resultOf c n)).2 = 0 ↔ relative_difference (resultOf c n) ≤ tolerance) ∧
    (Ev.finalize ∈ (mainRun (resultOf c n)).1 ↔
      relative_difference (resultOf c n) ≤ tolerance) := by
  refine ⟨by rw [relative_difference, div_one, resultOf], rfl, ?_, ?_, ?_⟩
  · unfold mainRun
    by_cases h : tolerance < relative_difference (resultOf c n)
    · rw [if_pos h]
      simp [h]
    · rw [if_neg h]
      simp [h]
  · unfold mainRun
    by_cases h : tolerance < relative_difference (resultOf c n)
    · rw [if_pos h]
      have h4 := not_le.2 h
      simp [h4]
    · rw [if_neg h]
      have h4 := not_lt.1 h
      simp [h4]
  · unfold mainRun
    by_cases h : tolerance < relative_difference (resultOf c n)
    · rw [if_pos h]
      have h4 := not_le.2 h
      simp only [h4, iff_false]
      decide
    · rw [if_neg h]
      have h4 := not_lt.1 h
      simp only [h4, iff_true]
      decide

/-! ## Claim C6: the reported maxima -/

/-- Claim C6 names a code bug in the wall-time report: `MPI_Wtime`
differences are already in seconds, yet line 130 prints
`total_time_max / 1000.0` under the label `Max MPI time (s)`.  With a
single process whose wall time is 2 seconds, the reported value is
`0.002`, not the group maximum 2 expressed in seconds.  (The device
report is fine: `hipEventElapsedTime` is in milliseconds, so its
`/ 1000.0` is a correct conversion.) -/
theorem vAdd_C6_bug :
    mpiMax [(2 : ℚ)] = 2 ∧ maxWallTimeSecondsReported [(2 : ℚ)] = 1 / 500 ∧
    maxWallTimeSecondsReported [(2 : ℚ)] ≠ mpiMax [(2 : ℚ)] := by
  refine ⟨rfl, ?_, ?_⟩ <;> norm_num [maxWallTimeSecondsReported, mpiMax]

/-! ## Claim C8: the MAX reduction dominates every contribution -/

/-- The seed of a left fold of `max` never exceeds the fold. -/
theorem foldl_max_le_init (l : List ℚ) : ∀ b : ℚ, b ≤ l.foldl max b := by
  induction l with
  | nil => intro b; simp
  | cons a l ih =>
    intro b
    rw [List.foldl_cons]
    exact le_trans (le_max_left b a) (ih (max b a))

/-- Every member of a list is dominated by a left fold of `max` over it. -/
theorem le_foldl_max_of_mem (l : List ℚ) : ∀ (b x : ℚ), x ∈ l → x ≤ l.foldl max b := by
  induction l with
  | nil => intro b x h; exact absurd h (List.not_mem_nil x)
  | cons a l ih =>
    intro b x h
    rw [List.foldl_cons]
    rcases List.mem_cons.1 h with rfl | h
    · exact le_trans (le_max_right b x) (foldl_max_le_init l (max b x))
    · exact ih (max b a) x h

/-- Claim C8: for every vector of per-process contributions (device
milliseconds or wall seconds alike), the group-wide MAX reduction is at
least every individual participant contribution. -/
theorem vAdd_C8 (times : List ℚ) (x : ℚ) (hx : x ∈ times) : x ≤ mpiMax times := by
  cases times with
  | nil => exact absurd hx (List.not_mem_nil x)
  | cons a l =>
    unfold mpiMax
    rcases List.mem_cons.1 hx with rfl | h
    · exact foldl_max_le_init l x
    · exact le_foldl_max_of_mem l a x h

/-- Witness for C8 on the contribution vector `[1, 2, 1]`. -/
theorem vAdd_C8_witness : (2 : ℚ) ∈ [(1 : ℚ), 2, 1] ∧ (2 : ℚ) ≤ mpiMax [(1 : ℚ), 2, 1] :=
  ⟨by norm_num, vAdd_C8 [(1 : ℚ), 2, 1] 2 (by norm_num)⟩

/-! ## Claim C9: resource release on the successful path -/

/-- Counterexample to C9 as stated: on a successful run (mean 1, which
passes verification) neither timestamp marker is ever destroyed -- the
source contains no `hipEventDestroy` call at all. -/
theorem vAdd_C9_cex :
    relative_difference 1 ≤ tolerance ∧
    Ev.eventDestroyStart ∉ (mainRun 1).1 ∧ Ev.eventDestroyEnd ∉ (mainRun 1).1 := by
  have h : relative_difference 1 ≤ tolerance := by norm_num [tolerance, relative_difference]
  have h2 : ¬ tolerance < relative_difference 1 := not_lt.2 h
  refine ⟨h, ?_, ?_⟩ <;>
    · unfold mainRun
      rw [if_neg h2]
      decide

/-- Claim C9, amended: on the successful path the program does release
all three device buffers after the device-to-host copy of `C` and
before exiting with status 0, but the two timestamp markers are never
destroyed. -/
theorem vAdd_C9_amended (result : ℚ) (hpass : relative_difference result ≤ tolerance) :
    (∃ pre post : List Ev, (mainRun result).1 = pre ++ Ev.d2hCopyC :: post ∧
      Ev.d2hCopyC ∉ pre ∧
      Ev.devFreeA ∈ post ∧ Ev.devFreeB ∈ post ∧ Ev.devFreeC ∈ post) ∧
    Ev.eventDestroyStart ∉ (mainRun result).1 ∧
    Ev.eventDestroyEnd ∉ (mainRun result).1 ∧
    (mainRun result).2 = 0 := by
  have h : ¬ tolerance < relative_difference result := not_lt.2 hpass
  unfold mainRun
  rw [if_neg h]
  refine ⟨⟨[Ev.hostMallocA, Ev.hostMallocB, Ev.hostMallocC, Ev.seedLoop,
      Ev.devMallocA, Ev.devMallocB, Ev.devMallocC, Ev.h2dCopyA, Ev.h2dCopyB,
      Ev.eventCreateStart, Ev.eventCreateEnd, Ev.eventRecordStart, Ev.kernelLaunch,
      Ev.eventRecordEnd, Ev.eventSync, Ev.elapsedQuery],
      Ev.reduceGpu :: successTail, ?_, ?_, ?_, ?_, ?_⟩, ?_, ?_, rfl⟩ <;> decide

/-- Witness for the amended C9 on a successful run with mean 1. -/
theorem vAdd_C9_amended_witness :
    relative_difference 1 ≤ tolerance ∧
    ((∃ pre post : List Ev, (mainRun 1).1 = pre ++ Ev.d2hCopyC :: post ∧
        Ev.d2hCopyC ∉ pre ∧
        Ev.devFreeA ∈ post ∧ Ev.devFreeB ∈ post ∧ Ev.devFreeC ∈ post) ∧
      Ev.eventDestroyStart ∉ (mainRun 1).1 ∧
      Ev.eventDestroyEnd ∉ (mainRun 1).1 ∧
      (mainRun 1).2 = 0) := by
  have h : relative_difference 1 ≤ tolerance := by norm_num [tolerance, relative_difference]
  exact ⟨h, vAdd_C9_amended 1 h⟩

/-! ## Claim C7: seeding identity and exact mean -/

/-- Claim C7: seeding sets `A[i] = sin(r_i)^2`, `B[i] = cos(r_i)^2`
from the same per-index draw and `C[i] = 0`; in exact arithmetic
`A[i] + B[i] = 1` for every index, so the mean of `C` after the kernel
ran over the launch configuration derived for the reference length is
exactly 1, for every choice of random draws. -/
theorem vAdd_C7 (r : ℤ → ℝ) :
    (∀ i : ℤ, seedA r i + seedB r i = 1) ∧ (∀ i : ℤ, seedC i = 0) ∧ meanAfterAdd r = 1 := by
  have hid : ∀ i : ℤ, seedA r i + seedB r i = 1 := by
    intro i
    have h := Real.sin_sq_add_cos_sq (r i)
    rw [pow_two, pow_two] at h
    simpa [seedA, seedB] using h
  refine ⟨hid, fun i => rfl, ?_⟩
  unfold meanAfterAdd
  have hcov : 256 * blk_in_grid Nref = Nref := by decide
  have hsum : ∀ i ∈ Finset.range Nref,
      runKernel (Nref : ℤ) (seedA r) (seedB r) seedC (blk_in_grid Nref) (i : ℤ) = 1 := by
    intro i hi
    rw [Finset.mem_range] at hi
    have hc : 0 ≤ (i : ℤ) ∧ (i : ℤ) < 256 * (blk_in_grid Nref : ℤ) ∧ (i : ℤ) < (Nref : ℤ) := by
      omega
    rw [runKernel_apply, if_pos hc]
    exact hid i
  rw [Finset.sum_congr rfl hsum, Finset.sum_const, Finset.card_range, nsmul_eq_mul, mul_one]
  rw [div_self]
  exact Nat.cast_ne_zero.2 (by norm_num [Nref])
